import Mathlib

/-!
Verification of the FAIRWork crf-cp-solver planning system.

The development shallowly embeds the data transformations and the two
constraint models of the repository:

* the input canonicalizer and HTTP surface of `src/api/swagger_api.py`,
* the order-to-line (OTL) CP model of
  `src/order_scheduling/cp_order_to_line.py` (`main`),
* the interval-based worker-allocation (WLA) model of
  `src/worker_allocation/cp_woker_allocation.py` (`main`),
* the coarse global-assignment WLA model of
  `src/worker_allocation/temp_cp_worker_allocation.py` (`main_allocation`).

CP-SAT decision variables become fields of a solution record; the constraint
set built by each model becomes a predicate on solutions, so that statements
about "every solution produced by the solver" become statements about every
solution satisfying the embedded constraint set.  Machine arithmetic is
embedded with `Int`/`Nat` (the source works with Python integers).
-/

/-! ### Availability canonicalization (swagger_api.py, lines 7664-7694)

The `/worker-assignment` handler turns each availability record into an hour
window.  The source first adds `start_time_stamp` to the record's
`from_timestamp` and `end_timestamp` fields (comment in the source: "Assume
the from_time and end_time is relative to start_time_timestamp"), then
subtracts `start_time_stamp` again before dividing by 3600 and clamping. -/

/-- Floor division by 3600, as `math.floor(x / 3600)` on an integer input. -/
def floorDiv3600 (x : Int) : Int := Int.fdiv x 3600

/-- Ceiling division by 3600, as `math.ceil(x / 3600)` on an integer input. -/
def ceilDiv3600 (x : Int) : Int := -(Int.fdiv (-x) 3600)

/-- The hour window computed by the handler for one availability record:
`from_relative = max 0 (floor((start + from - start)/3600))` and
`end_relative = max 0 (ceil((start + end - start)/3600))`
(swagger_api.py lines 7671-7680). -/
def availabilityHourWindow (startTs fromTs endTs : Int) : Int × Int :=
  let fromAbs := startTs + fromTs
  let endAbs := startTs + endTs
  (max 0 (floorDiv3600 (fromAbs - startTs)), max 0 (ceilDiv3600 (endAbs - startTs)))

/-- The hour window as the specification words it: map each
`(from_epoch, end_epoch)` window to
`(floor((from - start)/3600), ceil((end - start)/3600))`, clamped to be
nonnegative, with `from`/`end` the record's fields themselves. -/
def availabilityHourWindowPerSpec (startTs fromTs endTs : Int) : Int × Int :=
  (max 0 (floorDiv3600 (fromTs - startTs)), max 0 (ceilDiv3600 (endTs - startTs)))

/-- C7 counterexample: the handler's hour window differs from the
spec-worded `(floor((from-start)/3600), ceil((end-start)/3600))` already at
`start_time_stamp = 3600`, `from_timestamp = 3600`, `end_timestamp = 7200`:
the code yields `(1, 2)` while the claimed formula yields `(0, 1)`. -/
theorem availability_window_cex :
    availabilityHourWindow 3600 3600 7200 = (1, 2) ∧
    availabilityHourWindowPerSpec 3600 3600 7200 = (0, 1) ∧
    availabilityHourWindow 3600 3600 7200 ≠ availabilityHourWindowPerSpec 3600 3600 7200 := by
  refine ⟨by decide, by decide, by decide⟩

/-- C7 (amended): the handler adds `start_time_stamp` to each field and then
subtracts it again, so the produced window is
`(max 0 (floor(from/3600)), max 0 (ceil(end/3600)))` — it depends only on the
raw field values, never on `start_time_stamp`. -/
theorem availability_window_shift_cancels (s f e : Int) :
    availabilityHourWindow s f e =
      (max 0 (floorDiv3600 f), max 0 (ceilDiv3600 e)) := by
  unfold availabilityHourWindow
  simp [add_sub_cancel_left]

/-! ### The `/order-to-line` endpoint surface (swagger_api.py)

`swagger_api.py` line 9 imports `main` from `order_scheduling.cp_order_to_line`
and line 10 imports `main_allocation` from
`worker_allocation.cp_woker_allocation`; the handler for `/order-to-line`
calls `main(order_list=order_list)` at line 7850.  We embed the module-level
surface of the two callee modules and the call made by the endpoint. -/

/-- The keyword parameters of `main` in
`src/order_scheduling/cp_order_to_line.py`, line 79:
`def main(makespan_weight: int = 1, tardiness_weight: int = 1, hours_per_day: int = 16)`. -/
def cpOrderToLineMainParams : List String :=
  ["makespan_weight", "tardiness_weight", "hours_per_day"]

/-- The top-level function definitions of
`src/worker_allocation/cp_woker_allocation.py`. -/
def cpWokerAllocationTopLevelDefs : List String :=
  ["is_interval_included", "extend_line_allocation_with_geometry_and_required_workers", "main"]

/-- The names `swagger_api.py` imports from `worker_allocation.cp_woker_allocation`
(lines 10-11). -/
def swaggerWorkerAllocationImports : List String :=
  ["main_allocation", "extend_line_allocation_with_geometry_and_required_workers"]

/-- The keyword arguments the `/order-to-line` handler passes to `main`
(swagger_api.py line 7850: `main(order_list=order_list)`). -/
def orderToLineCallKeywords : List String := ["order_list"]

/-- A Python keyword call binds only when every passed keyword is a declared
parameter of the callee (no `**kwargs` is declared on `main`). -/
def pythonKeywordCallBinds (params callKws : List String) : Bool :=
  callKws.all (fun k => params.contains k)

/-- C1: the `/order-to-line` handler cannot respond 200 as claimed.  The
keyword call `main(order_list=...)` does not bind against the parameters of
`cp_order_to_line.main` (a `TypeError`, surfaced as HTTP 500), and the name
`main_allocation` that `swagger_api.py` imports from
`worker_allocation.cp_woker_allocation` is not defined there (an
`ImportError` when the module is loaded). -/
theorem order_to_line_endpoint_call_mismatch :
    pythonKeywordCallBinds cpOrderToLineMainParams orderToLineCallKeywords = false ∧
    cpWokerAllocationTopLevelDefs.contains "main_allocation" = false ∧
    (swaggerWorkerAllocationImports.all
      (fun n => cpWokerAllocationTopLevelDefs.contains n)) = false := by
  refine ⟨by decide, by decide, by decide⟩

/-! ### The order-to-line CP model (cp_order_to_line.py, `main`)

`main` builds one optional interval per `(order, alternative)` pair, links the
per-order variables to the selected alternative, adds a `NoOverlap` per line
and a pairwise priority constraint, and finally extracts a Gantt row per
order.  We embed the constructed constraint set as a predicate `OtlOk` over a
record of variable valuations, and the Gantt extraction as functions of a
valuation.  The objective-defining constraints (makespan, total tardiness,
objective variable) are determined equalities over fresh variables and are
omitted from `OtlOk`; dropping them only enlarges the solution set, which is
sound for the universally quantified properties proved below. -/

/-- One alternative of an order: the tuple
`(duration [h], line_id, priority, due_date [h])` of `EXAMPLE_ORDER_INSTANCE`. -/
structure OtlAlt where
  duration : Int
  lineId : Nat
  priority : Nat
  due : Int
deriving DecidableEq

/-- A default alternative, used only for out-of-range `getD` accesses that the
theorems always guard by length bounds. -/
def dummyAlt : OtlAlt := ⟨0, 0, 0, 0⟩

/-- The OTL horizon: for each order the duration of its longest alternative,
summed over the orders (cp_order_to_line.py lines 92-95; Python `max` over a
nonempty positive list is embedded as a fold with base 0). -/
def otlHorizon (orders : List (List OtlAlt)) : Int :=
  (orders.map (fun alts => (alts.map (·.duration)).foldl max 0)).foldl (· + ·) 0

/-- An order is classified as priority when the `priority` field of its first
alternative equals 1 (cp_order_to_line.py line 127: `order[0][2] == 1`). -/
def otlIsPriority (orders : List (List OtlAlt)) (i : Nat) : Bool :=
  ((orders.getD i []).getD 0 dummyAlt).priority == 1

/-- A valuation of the CP-SAT decision variables of the OTL model.
`pres i j` is `presence_order_i_line_*` of alternative `j`, `altStart`/`altEnd`
the per-alternative interval bounds, `orderStart`/`orderEnd`/`tard` the
per-order variables. -/
structure OtlSolution where
  pres : Nat → Nat → Bool
  altStart : Nat → Nat → Int
  altEnd : Nat → Nat → Int
  orderStart : Nat → Int
  orderEnd : Nat → Int
  tard : Nat → Int

/-- The alternative list of order `i`. -/
def otlAlts (orders : List (List OtlAlt)) (i : Nat) : List OtlAlt :=
  orders.getD i []

/-- The alternative `j` of order `i` (guarded by length bounds wherever it is
used). -/
def otlAltAt (orders : List (List OtlAlt)) (i j : Nat) : OtlAlt :=
  (orders.getD i []).getD j dummyAlt

/-- The per-order constraint block of the OTL model (cp_order_to_line.py
lines 116-170): variable domains `[0, horizon]`, the optional-interval
equation `end = start + duration` enforced by presence, the linking of the
order variables to the selected alternative, and `add_exactly_one` over the
alternative presences. -/
def otlOrderOk (orders : List (List OtlAlt)) (σ : OtlSolution) : Prop :=
  ∀ i ∈ List.range orders.length,
    (0 ≤ σ.orderStart i ∧ σ.orderStart i ≤ otlHorizon orders) ∧
    (0 ≤ σ.orderEnd i ∧ σ.orderEnd i ≤ otlHorizon orders) ∧
    (0 ≤ σ.tard i ∧ σ.tard i ≤ otlHorizon orders) ∧
    ((List.range (otlAlts orders i).length).countP (fun j => σ.pres i j) = 1) ∧
    (∀ j ∈ List.range (otlAlts orders i).length,
      (0 ≤ σ.altStart i j ∧ σ.altStart i j ≤ otlHorizon orders) ∧
      (0 ≤ σ.altEnd i j ∧ σ.altEnd i j ≤ otlHorizon orders) ∧
      (σ.pres i j = true →
        σ.altEnd i j = σ.altStart i j + (otlAltAt orders i j).duration ∧
        σ.orderEnd i = σ.altEnd i j ∧
        σ.orderStart i = σ.altStart i j ∧
        σ.tard i = max 0 (σ.altEnd i j - (otlAltAt orders i j).due)))

/-- The per-line `add_no_overlap` constraints (cp_order_to_line.py lines
174-175): any two distinct present optional intervals on the same line are
disjoint. -/
def otlNoOverlapOk (orders : List (List OtlAlt)) (σ : OtlSolution) : Prop :=
  ∀ i ∈ List.range orders.length, ∀ j ∈ List.range (otlAlts orders i).length,
    ∀ i' ∈ List.range orders.length, ∀ j' ∈ List.range (otlAlts orders i').length,
      (i, j) ≠ (i', j') →
      (otlAltAt orders i j).lineId = (otlAltAt orders i' j').lineId →
      σ.pres i j = true → σ.pres i' j' = true →
      σ.altEnd i j ≤ σ.altStart i' j' ∨ σ.altEnd i' j' ≤ σ.altStart i j

/-- The pairwise priority constraints (cp_order_to_line.py lines 178-180):
the start of every priority order is at most the start of every non-priority
order. -/
def otlPriorityOk (orders : List (List OtlAlt)) (σ : OtlSolution) : Prop :=
  ∀ i ∈ List.range orders.length, ∀ i' ∈ List.range orders.length,
    otlIsPriority orders i = true → otlIsPriority orders i' = false →
    σ.orderStart i ≤ σ.orderStart i'

/-- A valuation satisfies the OTL model's constraint set. -/
def OtlOk (orders : List (List OtlAlt)) (σ : OtlSolution) : Prop :=
  otlOrderOk orders σ ∧ otlNoOverlapOk orders σ ∧ otlPriorityOk orders σ

/-- The `presences` dictionary is keyed by `(order_idx, line_id)`
(cp_order_to_line.py line 166), so its entry for a line is the presence
variable of the last alternative of the order on that line.  `lastAltIdx`
returns that alternative's index. -/
def lastAltIdx (alts : List OtlAlt) (ℓ : Nat) : Option Nat :=
  ((List.range alts.length).filter (fun j => (alts.getD j dummyAlt).lineId = ℓ)).getLast?

/-- The value the extraction reads from the `presences` dictionary for
`(order, line)`: the presence of the last alternative on that line, `false`
when the order has no alternative on the line (the source would raise
`KeyError`; the extraction only queries lines that occur in the order's
alternative list). -/
def otlDictPres (alts : List OtlAlt) (p : Nat → Bool) (ℓ : Nat) : Bool :=
  match lastAltIdx alts ℓ with
  | some j => p j
  | none => false

/-- The candidate-line list of the Gantt extraction (cp_order_to_line.py
lines 221-222): the line ids of the order's alternatives whose `presences`
dictionary entry evaluates to 1, in alternative order. -/
def otlChosenLines (orders : List (List OtlAlt)) (σ : OtlSolution) (i : Nat) : List Nat :=
  ((List.range (otlAlts orders i).length).filter
      (fun j => otlDictPres (otlAlts orders i) (σ.pres i) ((otlAltAt orders i j).lineId))).map
    (fun j => (otlAltAt orders i j).lineId)

/-- The `Resource` emitted for order `i`: the first element of the candidate
list (cp_order_to_line.py line 222, index `[0]`). -/
def otlResource (orders : List (List OtlAlt)) (σ : OtlSolution) (i : Nat) : Option Nat :=
  (otlChosenLines orders σ i).head?

/-- A true `presences`-dictionary read certifies a present alternative on the
queried line. -/
theorem otlDictPres_exists {alts : List OtlAlt} {p : Nat → Bool} {ℓ : Nat}
    (h : otlDictPres alts p ℓ = true) :
    ∃ j, j < alts.length ∧ (alts.getD j dummyAlt).lineId = ℓ ∧ p j = true := by
  unfold otlDictPres lastAltIdx at h
  cases hL : ((List.range alts.length).filter
      (fun j => decide ((alts.getD j dummyAlt).lineId = ℓ))).getLast? with
  | none => rw [hL] at h; exact absurd h (by simp)
  | some j =>
    rw [hL] at h
    have h1 := List.mem_filter.mp (List.mem_of_getLast?_eq_some hL)
    exact ⟨j, List.mem_range.mp h1.1, by simpa using h1.2, h⟩

/-- When the alternatives of an order lie on pairwise distinct lines, the
`presences` dictionary keyed by `(order_idx, line_id)` loses nothing: the
entry for the line of alternative `k` is the presence variable of
alternative `k` itself. -/
theorem lastAltIdx_of_distinct {alts : List OtlAlt}
    (hd : ∀ j, j < alts.length → ∀ j', j' < alts.length →
      (alts.getD j dummyAlt).lineId = (alts.getD j' dummyAlt).lineId → j = j')
    {k : Nat} (hk : k < alts.length) :
    lastAltIdx alts ((alts.getD k dummyAlt).lineId) = some k := by
  unfold lastAltIdx
  have hkL : k ∈ (List.range alts.length).filter
      (fun j => decide ((alts.getD j dummyAlt).lineId = (alts.getD k dummyAlt).lineId)) :=
    List.mem_filter.mpr ⟨List.mem_range.mpr hk, by simp⟩
  cases hO : ((List.range alts.length).filter
      (fun j => decide ((alts.getD j dummyAlt).lineId = (alts.getD k dummyAlt).lineId))).getLast? with
  | none =>
    rw [List.getLast?_eq_none_iff] at hO
    rw [hO] at hkL
    exact absurd hkL (by simp)
  | some a =>
    have haL := List.mem_filter.mp (List.mem_of_getLast?_eq_some hO)
    have hak : a = k :=
      hd a (List.mem_range.mp haL.1) k hk (by simpa using haL.2)
    rw [hak]

/-- C5: priority precedence.  In every solution of the OTL model, an order
whose priority bit (the `priority` field of its first alternative, the bit
shared by all its alternatives) is 1 starts no later than an order whose
priority bit is 0; the pairwise constraints `order_start_p ≤ order_start_n`
of cp_order_to_line.py lines 178-180 enforce exactly this, and the emitted
`Start` values are the `order_start` valuations. -/
theorem otl_priority_precedence (orders : List (List OtlAlt)) (σ : OtlSolution)
    (h : OtlOk orders σ) (i i' : Nat)
    (hi : i < orders.length) (hi' : i' < orders.length)
    (hp : ((orders.getD i []).getD 0 dummyAlt).priority = 1)
    (hn : ((orders.getD i' []).getD 0 dummyAlt).priority = 0) :
    σ.orderStart i ≤ σ.orderStart i' :=
  h.2.2 i (List.mem_range.mpr hi) i' (List.mem_range.mpr hi')
    (by unfold otlIsPriority; rw [hp]; decide) (by unfold otlIsPriority; rw [hn]; decide)

/-- C6: line exclusivity.  In every solution of the OTL model, two distinct
extracted Gantt rows that carry the same `Resource` line have disjoint
`[Start, Finish)` windows: one's `Finish` is at most the other's `Start`. -/
theorem otl_line_exclusivity (orders : List (List OtlAlt)) (σ : OtlSolution)
    (h : OtlOk orders σ) (i i' : Nat)
    (hi : i < orders.length) (hi' : i' < orders.length) (hne : i ≠ i') (ℓ : Nat)
    (hr : otlResource orders σ i = some ℓ) (hr' : otlResource orders σ i' = some ℓ) :
    σ.orderEnd i ≤ σ.orderStart i' ∨ σ.orderEnd i' ≤ σ.orderStart i := by
  unfold otlResource at hr hr'
  have hmem : ℓ ∈ otlChosenLines orders σ i :=
    List.mem_of_mem_head? (by simp [hr])
  have hmem' : ℓ ∈ otlChosenLines orders σ i' :=
    List.mem_of_mem_head? (by simp [hr'])
  unfold otlChosenLines at hmem hmem'
  obtain ⟨a, ha, hfa⟩ := List.mem_map.mp hmem
  obtain ⟨a', ha', hfa'⟩ := List.mem_map.mp hmem'
  have hq := (List.mem_filter.mp ha).2
  have hq' := (List.mem_filter.mp ha').2
  rw [hfa] at hq
  rw [hfa'] at hq'
  obtain ⟨j, hj, hjl, hjp⟩ := otlDictPres_exists hq
  obtain ⟨j', hj', hjl', hjp'⟩ := otlDictPres_exists hq'
  have hdisj := h.2.1 i (List.mem_range.mpr hi) j (List.mem_range.mpr hj)
      i' (List.mem_range.mpr hi') j' (List.mem_range.mpr hj')
      (by simp [Prod.ext_iff]; intro hii _; exact absurd hii hne)
      (by unfold otlAltAt; unfold otlAlts at hjl hjl'; rw [hjl, hjl'])
      hjp hjp'
  have hlink := ((h.1 i (List.mem_range.mpr hi)).2.2.2.2 j
      (List.mem_range.mpr hj)).2.2 hjp
  have hlink' := ((h.1 i' (List.mem_range.mpr hi')).2.2.2.2 j'
      (List.mem_range.mpr hj')).2.2 hjp'
  rw [hlink.2.1, hlink.2.2.1, hlink'.2.1, hlink'.2.2.1]
  exact hdisj

/-- C10: when each order's alternatives lie on pairwise distinct lines, the
per-order extraction finds exactly one candidate line — so indexing `[0]`
never fails — and the emitted `Resource` is the line of the selected
alternative. -/
theorem otl_extraction_unique_line (orders : List (List OtlAlt)) (σ : OtlSolution)
    (h : OtlOk orders σ) (i : Nat) (hi : i < orders.length)
    (hd : ∀ j, j < (otlAlts orders i).length → ∀ j', j' < (otlAlts orders i).length →
      (otlAltAt orders i j).lineId = (otlAltAt orders i j').lineId → j = j') :
    (otlChosenLines orders σ i).length = 1 ∧
    ∀ j, j < (otlAlts orders i).length → σ.pres i j = true →
      otlChosenLines orders σ i = [(otlAltAt orders i j).lineId] ∧
      otlResource orders σ i = some (otlAltAt orders i j).lineId := by
  have hdict : ∀ j ∈ List.range (otlAlts orders i).length,
      otlDictPres (otlAlts orders i) (σ.pres i) ((otlAltAt orders i j).lineId) = σ.pres i j := by
    intro j hj
    have hlast := @lastAltIdx_of_distinct (otlAlts orders i)
      (fun a ha a' ha' hl => hd a ha a' ha' hl) j (List.mem_range.mp hj)
    unfold otlDictPres otlAltAt otlAlts
    unfold otlAltAt otlAlts at hlast
    rw [hlast]
  have hcount := (h.1 i (List.mem_range.mpr hi)).2.2.2.1
  have hlen : (otlChosenLines orders σ i).length = 1 := by
    unfold otlChosenLines
    rw [List.length_map, ← List.countP_eq_length_filter]
    rw [List.countP_congr (fun j hj => by rw [hdict j hj])]
    exact hcount
  refine ⟨hlen, fun j hj hp => ?_⟩
  have hjf : j ∈ (List.range (otlAlts orders i).length).filter
      (fun j => otlDictPres (otlAlts orders i) (σ.pres i) ((otlAltAt orders i j).lineId)) :=
    List.mem_filter.mpr ⟨List.mem_range.mpr hj, by rw [hdict j (List.mem_range.mpr hj)]; exact hp⟩
  have hflen : ((List.range (otlAlts orders i).length).filter
      (fun j => otlDictPres (otlAlts orders i) (σ.pres i) ((otlAltAt orders i j).lineId))).length = 1 := by
    have := hlen
    unfold otlChosenLines at this
    rwa [List.length_map] at this
  obtain ⟨a, haeq⟩ := List.length_eq_one.mp hflen
  have haj : a = j := by
    rw [haeq] at hjf
    exact (List.mem_singleton.mp hjf).symm
  have hch : otlChosenLines orders σ i = [(otlAltAt orders i j).lineId] := by
    unfold otlChosenLines
    rw [haeq, haj]
    rfl
  exact ⟨hch, by rw [otlResource, hch]; rfl⟩

instance (orders : List (List OtlAlt)) (σ : OtlSolution) : Decidable (otlOrderOk orders σ) := by
  unfold otlOrderOk; exact inferInstance

instance (orders : List (List OtlAlt)) (σ : OtlSolution) : Decidable (otlNoOverlapOk orders σ) := by
  unfold otlNoOverlapOk; exact inferInstance

instance (orders : List (List OtlAlt)) (σ : OtlSolution) : Decidable (otlPriorityOk orders σ) := by
  unfold otlPriorityOk; exact inferInstance

instance (orders : List (List OtlAlt)) (σ : OtlSolution) : Decidable (OtlOk orders σ) := by
  unfold OtlOk; exact inferInstance

/-- A two-order OTL instance: a priority order on line 0 and a non-priority
order on line 1. -/
def otlOrdersW : List (List OtlAlt) := [[⟨2, 0, 1, 10⟩], [⟨3, 1, 0, 10⟩]]

/-- A concrete valuation solving `otlOrdersW`: each order takes its only
alternative, order 0 runs on `[0, 2)` on line 0, order 1 on `[0, 3)` on
line 1. -/
def otlSolW : OtlSolution where
  pres := fun _ j => j == 0
  altStart := fun _ _ => 0
  altEnd := fun i _ => if i == 0 then 2 else 3
  orderStart := fun _ => 0
  orderEnd := fun i => if i == 0 then 2 else 3
  tard := fun _ => 0

/-- A two-order OTL instance with both orders on line 0, both non-priority. -/
def otlOrdersX : List (List OtlAlt) := [[⟨2, 0, 0, 10⟩], [⟨3, 0, 0, 10⟩]]

/-- A concrete valuation solving `otlOrdersX`: order 0 runs on `[0, 2)` and
order 1 on `[2, 5)`, both on line 0. -/
def otlSolX : OtlSolution where
  pres := fun _ j => j == 0
  altStart := fun i _ => if i == 0 then 0 else 2
  altEnd := fun i _ => if i == 0 then 2 else 5
  orderStart := fun i => if i == 0 then 0 else 2
  orderEnd := fun i => if i == 0 then 2 else 5
  tard := fun _ => 0

/-- C5 witness: the priority theorem applied to the concrete solution
`otlSolW` of `otlOrdersW`. -/
theorem otl_priority_precedence_witness :
    otlSolW.orderStart 0 ≤ otlSolW.orderStart 1 :=
  otl_priority_precedence otlOrdersW otlSolW (by decide) 0 1 (by decide) (by decide)
    (by decide) (by decide)

/-- C6 witness: the exclusivity theorem applied to the concrete solution
`otlSolX` of `otlOrdersX`, whose two orders share line 0. -/
theorem otl_line_exclusivity_witness :
    otlSolX.orderEnd 0 ≤ otlSolX.orderStart 1 ∨ otlSolX.orderEnd 1 ≤ otlSolX.orderStart 0 :=
  otl_line_exclusivity otlOrdersX otlSolX (by decide) 0 1 (by decide) (by decide)
    (by decide) 0 (by decide) (by decide)

/-- C10 witness: the extraction theorem applied to the concrete solution
`otlSolW` of `otlOrdersW` at order 0 and its selected alternative 0. -/
theorem otl_extraction_unique_line_witness :
    otlChosenLines otlOrdersW otlSolW 0 = [0] ∧
    otlResource otlOrdersW otlSolW 0 = some 0 :=
  (otl_extraction_unique_line otlOrdersW otlSolW (by decide) 0 (by decide) (by decide)).2
    0 (by decide) (by decide)

/-! ### The interval-based WLA model (cp_woker_allocation.py, `main`)

`main` partitions the horizon at every schedule `Start`/`Finish` and every
availability endpoint, and builds, for every elementary interval whose
`relevant_orders` filter is non-empty, per-worker variables
(`w_experience`, `w_preference`, `w_resilience`, `w_allocation`,
`w_not_present`) and, for every line with a positive required-worker count,
per-worker boolean assignment variables and one staffing-offset variable.
We embed the constructed constraint set as a predicate on a valuation
record.  The objective-total constraints (lines 295-316) are determined
equalities over fresh variables and are omitted; the staffing-offset
equality at line 287 is commented out in the source, so only the offset
variable's domain is part of the model. -/

/-- One row of `line_data`: a schedule entry extended with its geometry and
the required worker count. -/
structure WRow where
  task : String
  start : Int
  finish : Int
  resource : String
  geometry : String
  required : Nat
deriving DecidableEq

/-- One worker-geometry affinity record of `worker_specific_data`.  The
source stores floats and multiplies them by 100 with `int(x * 100)`; we
store the already-scaled integers, which is faithful for every property
proved here (none depends on the rounding itself). -/
structure WAff where
  exp100 : Int
  pref100 : Int
  res100 : Int
  medical : Bool
deriving DecidableEq

/-- One entry of `worker_availabilities`. -/
structure WAvail where
  workerId : Nat
  availability : List (Int × Int)
deriving DecidableEq

/-- The inputs of `main` (cp_woker_allocation.py line 89):
`line_data`, `worker_specific_data` and `worker_availabilities`.
`worker_specific_data` is embedded as an association list; the source
indexes it as `worker_specific_data[worker_id]` (a `KeyError` when absent),
and in every input considered here each availability worker has an entry. -/
structure WlaInput where
  lineData : List WRow
  workerData : List (Nat × List (String × WAff))
  avails : List WAvail

/-- The helper `is_interval_included` (cp_woker_allocation.py lines 13-28): the target
interval is contained in some interval of the list. -/
def is_interval_included (target : Int × Int) (l : List (Int × Int)) : Bool :=
  l.any (fun p => decide (p.1 ≤ target.1) && decide (p.2 ≥ target.2))

/-- The sorted deduplicated interval bounds: all `Start` and `Finish` values
of `line_data` plus all availability endpoints (cp_woker_allocation.py lines
126-137). -/
def intervalBounds (inp : WlaInput) : List Int :=
  ((inp.lineData.map (·.start) ++ inp.lineData.map (·.finish)
      ++ inp.avails.flatMap (fun w => w.availability.flatMap (fun p => [p.1, p.2]))).dedup).insertionSort (· ≤ ·)

/-- The elementary intervals: adjacent pairs of the sorted bounds
(cp_woker_allocation.py lines 139-141). -/
def intervalTuples (inp : WlaInput) : List (Int × Int) :=
  (intervalBounds inp).zip (intervalBounds inp).tail

/-- The `relevant_orders` filter of an elementary interval
(cp_woker_allocation.py line 157): rows whose `Start` lies within
`[interval_start, interval_end]`.  Note it keys on `Start` only. -/
def relevantOrders (inp : WlaInput) (t : Int × Int) : List WRow :=
  inp.lineData.filter (fun o => decide (t.1 ≤ o.start) && decide (o.start ≤ t.2))

/-- The hard-coded line names of the model (cp_woker_allocation.py line
113). -/
def lineNamesWla : List String := ["Line 0", "Line 1", "Line 2"]

/-- The dense id of a line name (cp_woker_allocation.py lines 114-118). -/
def cpIdOfLine (ℓ : String) : Int :=
  if ℓ = "Line 0" then 0 else if ℓ = "Line 1" then 1 else 2

/-- The required-worker count the model uses for a line in an elementary
interval: each relevant order overwrites `line_details_within_interval` for
every line (cp_woker_allocation.py lines 164-170), so the value comes from
the last relevant row — its `required_workers` when its `Resource` is the
line, else 0 — and there are no assignment variables at all when no row is
relevant. -/
def reqModel (inp : WlaInput) (t : Int × Int) (ℓ : String) : Nat :=
  match (relevantOrders inp t).getLast? with
  | none => 0
  | some o => if o.resource = ℓ then o.required else 0

/-- The geometry the model associates with a line in an elementary interval
(same overwrite as `reqModel`; `None` when the last relevant row runs on a
different line). -/
def geomModel (inp : WlaInput) (t : Int × Int) (ℓ : String) : Option String :=
  match (relevantOrders inp t).getLast? with
  | none => none
  | some o => if o.resource = ℓ then some o.geometry else none

/-- Affinity lookup `worker_specific_data[worker_id].get(geometry)`. -/
def affLookup (inp : WlaInput) (w : Nat) (g : String) : Option WAff :=
  match inp.workerData.lookup w with
  | none => none
  | some recs => recs.lookup g

/-- A worker is medically excluded from a geometry when they have no
affinity record for it (`test_data is None`, line 265) or the record's
`medical-condition` is false (line 268). -/
def medicallyExcluded (inp : WlaInput) (w : Nat) (g : String) : Bool :=
  match affLookup inp w g with
  | none => true
  | some r => !r.medical

/-- The contribution values `(experience, preference, resilience)` enforced
on assignment (cp_woker_allocation.py lines 240-256): zero without a record,
otherwise the scaled affinity times the interval length. -/
def wlaContrib (inp : WlaInput) (w : Nat) (g : String) (t : Int × Int) : Int × Int × Int :=
  match affLookup inp w g with
  | none => (0, 0, 0)
  | some r => (r.exp100 * (t.2 - t.1), r.pref100 * (t.2 - t.1), r.res100 * (t.2 - t.1))

/-- The makespan of `line_data` (cp_woker_allocation.py line 94; Python
`max` over a nonempty list is embedded as a fold with base 0). -/
def wlaMakespan (inp : WlaInput) : Int :=
  (inp.lineData.map (·.finish)).foldl max 0

/-- The model horizon `full_days * 16` (cp_woker_allocation.py lines
96-110; the trailing partial day is dropped). -/
def wlaHorizon (inp : WlaInput) : Int :=
  Int.fdiv (wlaMakespan inp) 16 * 16

/-- The worker count `n_workers = len(worker_specific_data)` (cp_woker_allocation.py line
124). -/
def nWorkersWla (inp : WlaInput) : Nat := inp.workerData.length

/-- A valuation of the decision variables of the interval-based WLA model,
indexed by elementary interval, worker id and line name. -/
structure WlaSolution where
  assign : Int × Int → Nat → String → Bool
  notPresent : Int × Int → Nat → Bool
  alloc : Int × Int → Nat → Int
  wexp : Int × Int → Nat → Int
  wpref : Int × Int → Nat → Int
  wres : Int × Int → Nat → Int
  offset : Int × Int → String → Int

/-- How many lines with work the worker is assigned to in an interval
(assignment variables exist only for lines with a positive requirement,
cp_woker_allocation.py lines 219-229). -/
def wlaAssignCount (inp : WlaInput) (σ : WlaSolution) (t : Int × Int) (w : Nat) : Nat :=
  (lineNamesWla.filter (fun ℓ => decide (0 < reqModel inp t ℓ))).countP
    (fun ℓ => σ.assign t w ℓ)

/-- The contribution-linking constraints of one `(interval, worker, line)`
triple (cp_woker_allocation.py lines 254-259), enforced by the assignment
boolean. -/
def wlaContribClause (inp : WlaInput) (σ : WlaSolution) (t : Int × Int) (w : Nat) (ℓ : String) : Prop :=
  match geomModel inp t ℓ with
  | some g =>
      σ.assign t w ℓ = true →
        σ.wexp t w = (wlaContrib inp w g t).1 ∧
        σ.wpref t w = (wlaContrib inp w g t).2.1 ∧
        σ.wres t w = (wlaContrib inp w g t).2.2 ∧
        σ.alloc t w = cpIdOfLine ℓ
  | none => True

/-- The medical-condition constraint of one `(interval, worker, line)`
triple (cp_woker_allocation.py lines 261-269): a medically excluded worker's
assignment boolean is forced to 0. -/
def wlaMedicalClause (inp : WlaInput) (σ : WlaSolution) (t : Int × Int) (w : Nat) (ℓ : String) : Prop :=
  match geomModel inp t ℓ with
  | some g => medicallyExcluded inp w g = true → σ.assign t w ℓ = false
  | none => True

instance (inp : WlaInput) (σ : WlaSolution) (t : Int × Int) (w : Nat) (ℓ : String) :
    Decidable (wlaContribClause inp σ t w ℓ) := by
  unfold wlaContribClause
  cases geomModel inp t ℓ <;> exact inferInstance

instance (inp : WlaInput) (σ : WlaSolution) (t : Int × Int) (w : Nat) (ℓ : String) :
    Decidable (wlaMedicalClause inp σ t w ℓ) := by
  unfold wlaMedicalClause
  cases geomModel inp t ℓ <;> exact inferInstance

/-- The per-worker constraint block of the interval model
(cp_woker_allocation.py lines 172-272), built for every elementary interval
with a non-empty `relevant_orders` list: variable domains, the
`w_not_present` linking, the availability forcing, the exactly-one selector
and, per line with work, the contribution linking and the medical
constraint. -/
def wlaWorkerOk (inp : WlaInput) (σ : WlaSolution) : Prop :=
  ∀ t ∈ intervalTuples inp, relevantOrders inp t ≠ [] →
    ∀ a ∈ inp.avails,
      (0 ≤ σ.wexp t a.workerId ∧ σ.wexp t a.workerId ≤ wlaHorizon inp * 100) ∧
      (0 ≤ σ.wpref t a.workerId ∧ σ.wpref t a.workerId ≤ wlaHorizon inp * 100) ∧
      (0 ≤ σ.wres t a.workerId ∧ σ.wres t a.workerId ≤ wlaHorizon inp * 100) ∧
      (-1 ≤ σ.alloc t a.workerId ∧ σ.alloc t a.workerId ≤ (lineNamesWla.length : Int) - 1) ∧
      (σ.notPresent t a.workerId = true →
        σ.wexp t a.workerId = 0 ∧ σ.wpref t a.workerId = 0 ∧
        σ.wres t a.workerId = 0 ∧ σ.alloc t a.workerId = -1) ∧
      (is_interval_included t a.availability = false → σ.notPresent t a.workerId = true) ∧
      ((if σ.notPresent t a.workerId then 1 else 0) + wlaAssignCount inp σ t a.workerId = 1) ∧
      (∀ ℓ ∈ lineNamesWla, 0 < reqModel inp t ℓ →
        wlaContribClause inp σ t a.workerId ℓ ∧ wlaMedicalClause inp σ t a.workerId ℓ)

/-- The staffing-offset variables (cp_woker_allocation.py lines 284-291):
for every line with work in an interval, one integer variable with domain
`[-required, n_workers]`.  The equality tying it to the assignment sum
(line 287) is commented out in the source, so the domain is the only
constraint the model imposes on it. -/
def wlaOffsetOk (inp : WlaInput) (σ : WlaSolution) : Prop :=
  ∀ t ∈ intervalTuples inp, relevantOrders inp t ≠ [] →
    ∀ ℓ ∈ lineNamesWla, 0 < reqModel inp t ℓ →
      -(reqModel inp t ℓ : Int) ≤ σ.offset t ℓ ∧ σ.offset t ℓ ≤ (nWorkersWla inp : Int)

/-- A valuation satisfies the interval-based WLA model's constraint set. -/
def WlaModelOk (inp : WlaInput) (σ : WlaSolution) : Prop :=
  wlaWorkerOk inp σ ∧ wlaOffsetOk inp σ

instance (inp : WlaInput) (σ : WlaSolution) : Decidable (wlaWorkerOk inp σ) := by
  unfold wlaWorkerOk; exact inferInstance

instance (inp : WlaInput) (σ : WlaSolution) : Decidable (wlaOffsetOk inp σ) := by
  unfold wlaOffsetOk; exact inferInstance

instance (inp : WlaInput) (σ : WlaSolution) : Decidable (WlaModelOk inp σ) := by
  unfold WlaModelOk; exact inferInstance

/-- A positive requirement certifies a non-empty `relevant_orders` list. -/
theorem relevantOrders_ne_nil_of_req_pos {inp : WlaInput} {t : Int × Int} {ℓ : String}
    (h : 0 < reqModel inp t ℓ) : relevantOrders inp t ≠ [] := by
  intro hnil
  unfold reqModel at h
  rw [hnil] at h
  simp at h

/-- C2 (amended): in every solution of the interval-based WLA model, no
worker is assigned to a line in an elementary interval when the geometry the
model associates with that line and interval — the geometry of the last
`line_data` row on the line whose `Start` lies within the interval — has a
false `medical-condition` for the worker, or the worker has no affinity
record for it. -/
theorem wla_medical_model_geometry (inp : WlaInput) (σ : WlaSolution)
    (h : WlaModelOk inp σ) (t : Int × Int) (ht : t ∈ intervalTuples inp)
    (a : WAvail) (ha : a ∈ inp.avails) (ℓ : String) (hℓ : ℓ ∈ lineNamesWla)
    (hreq : 0 < reqModel inp t ℓ) (g : String) (hg : geomModel inp t ℓ = some g)
    (hbad : medicallyExcluded inp a.workerId g = true) :
    σ.assign t a.workerId ℓ = false := by
  have hrel := relevantOrders_ne_nil_of_req_pos hreq
  have hcl := ((h.1 t ht hrel a ha).2.2.2.2.2.2.2 ℓ hℓ hreq).2
  unfold wlaMedicalClause at hcl
  rw [hg] at hcl
  exact hcl hbad

/-- Modelled from the spec: the geometry running on line `ℓ` during the
elementary interval `[s_k, e_k)` is the geometry of a `line_data` row on `ℓ`
whose `start ≤ s_k` and `finish ≥ e_k` (spec §4.D; none when no such row
exists). -/
def runningGeomPerSpec (inp : WlaInput) (t : Int × Int) (ℓ : String) : Option String :=
  ((inp.lineData.filter (fun o =>
      decide (o.resource = ℓ) && decide (o.start ≤ t.1) && decide (t.2 ≤ o.finish))).head?).map
    (·.geometry)

/-- Modelled from the spec: `req[k,ℓ]` is the `required_workers` value of a
`line_data` row on line `ℓ` whose `start ≤ s_k` and `finish ≥ e_k`, and 0
when no such row exists (spec §4.D). -/
def reqPerSpec (inp : WlaInput) (t : Int × Int) (ℓ : String) : Nat :=
  match (inp.lineData.filter (fun o =>
      decide (o.resource = ℓ) && decide (o.start ≤ t.1) && decide (t.2 ≤ o.finish))).head? with
  | some o => o.required
  | none => 0

/-- The input witnessing the medical counterexample: two consecutive jobs on
line 0 — geometry `geoA` over `[0, 5)` and `geoB` over `[5, 10)` — and one
worker, available over `[0, 10)`, whose `geoA` record has
`medical-condition = False` and whose `geoB` record has
`medical-condition = True`. -/
def wlaInCex2 : WlaInput where
  lineData := [⟨"Order 0", 0, 5, "Line 0", "geoA", 1⟩, ⟨"Order 1", 5, 10, "Line 0", "geoB", 1⟩]
  workerData := [(1, [("geoA", ⟨0, 0, 0, false⟩), ("geoB", ⟨0, 0, 0, true⟩)])]
  avails := [⟨1, [(0, 10)]⟩]

/-- A valuation assigning worker 1 to line 0 in both elementary intervals of
`wlaInCex2`. -/
def wlaSolCex2 : WlaSolution where
  assign := fun _ w ℓ => w == 1 && ℓ == "Line 0"
  notPresent := fun _ _ => false
  alloc := fun _ _ => 0
  wexp := fun _ _ => 0
  wpref := fun _ _ => 0
  wres := fun _ _ => 0
  offset := fun _ _ => 0

/-- C2 counterexample: `wlaSolCex2` satisfies every constraint the model
builds for `wlaInCex2`, yet in the elementary interval `[5, 10)` worker 1 is
assigned to line 0 although the geometry actually running there per the
spec's definition is `geoA` — for which the worker is medically excluded.
The `relevant_orders` filter keys on `Start` only, with later rows
overwriting earlier ones, so in interval `[0, 5)` the model checks the
medical condition against `geoB`, the geometry of the row that merely starts
at the interval's right endpoint. -/
theorem wla_medical_running_geometry_cex :
    WlaModelOk wlaInCex2 wlaSolCex2 ∧
    (0, 5) ∈ intervalTuples wlaInCex2 ∧
    runningGeomPerSpec wlaInCex2 (0, 5) "Line 0" = some "geoA" ∧
    medicallyExcluded wlaInCex2 1 "geoA" = true ∧
    wlaSolCex2.assign (0, 5) 1 "Line 0" = true := by
  refine ⟨⟨by decide, by decide⟩, by decide, by decide, by decide, by decide⟩

/-- One job on line 0 over `[0, 5)` with geometry `geo1`, and one worker,
available over `[0, 5)`, whose `geo1` record has `medical-condition = False`. -/
def wlaInWit2 : WlaInput where
  lineData := [⟨"Order 0", 0, 5, "Line 0", "geo1", 1⟩]
  workerData := [(1, [("geo1", ⟨0, 0, 0, false⟩)])]
  avails := [⟨1, [(0, 5)]⟩]

/-- A valuation of `wlaInWit2` leaving the worker unassigned everywhere. -/
def wlaSolWit2 : WlaSolution where
  assign := fun _ _ _ => false
  notPresent := fun _ _ => true
  alloc := fun _ _ => -1
  wexp := fun _ _ => 0
  wpref := fun _ _ => 0
  wres := fun _ _ => 0
  offset := fun _ _ => 0

/-- C2 witness: the amended medical theorem evaluated on the concrete model
solution `wlaSolWit2` of `wlaInWit2`. -/
theorem wla_medical_model_geometry_witness :
    wlaSolWit2.assign (0, 5) 1 "Line 0" = false :=
  wla_medical_model_geometry wlaInWit2 wlaSolWit2 ⟨by decide, by decide⟩ (0, 5) (by decide)
    ⟨1, [(0, 5)]⟩ (by decide) "Line 0" (by decide) (by decide) "geo1" (by decide) (by decide)

/-- One job on line 0 spanning `[0, 10)` requiring 2 workers, and one worker
whose availability endpoint 5 splits the horizon into the elementary
intervals `[0, 5)` and `[5, 10)`. -/
def wlaInReq : WlaInput where
  lineData := [⟨"Order 0", 0, 10, "Line 0", "geo1", 2⟩]
  workerData := [(1, [("geo1", ⟨0, 0, 0, true⟩)])]
  avails := [⟨1, [(0, 5)]⟩]

/-- C3: the required-worker count the model builds diverges from the claimed
one.  For the elementary interval `[5, 10)` of `wlaInReq`, the row on line 0
spans the whole interval (`start 0 ≤ 5`, `finish 10 ≥ 10`), so the claimed
`req` is its `required_workers = 2`; but the `relevant_orders` filter at
cp_woker_allocation.py line 157 keeps only rows whose `Start` lies within
the interval, so the model's `req` is 0 and the job's demand is lost. -/
theorem wla_req_interval_filter_bug :
    (5, 10) ∈ intervalTuples wlaInReq ∧
    reqModel wlaInReq (5, 10) "Line 0" = 0 ∧
    reqPerSpec wlaInReq (5, 10) "Line 0" = 2 := by
  refine ⟨by decide, by decide, by decide⟩

/-- One job on line 0 over `[0, 5)` requiring one worker, and one medically
admissible worker available over `[0, 5)`. -/
def wlaInOff : WlaInput where
  lineData := [⟨"Order 0", 0, 5, "Line 0", "geo1", 1⟩]
  workerData := [(1, [("geo1", ⟨0, 0, 0, true⟩)])]
  avails := [⟨1, [(0, 5)]⟩]

/-- A valuation of `wlaInOff` assigning the worker to line 0 and setting the
staffing offset to its domain maximum 1. -/
def wlaSolOff : WlaSolution where
  assign := fun _ w ℓ => w == 1 && ℓ == "Line 0"
  notPresent := fun _ _ => false
  alloc := fun _ _ => 0
  wexp := fun _ _ => 0
  wpref := fun _ _ => 0
  wres := fun _ _ => 0
  offset := fun _ _ => 1

/-- The assignment sum `Σ_w assign[k,w,ℓ]` of an interval and line over the
workers of `worker_availabilities`. -/
def wlaAssignSum (inp : WlaInput) (σ : WlaSolution) (t : Int × Int) (ℓ : String) : Nat :=
  inp.avails.countP (fun a => σ.assign t a.workerId ℓ)

/-- C4: the staffing offset is not tied to the assignment sum.  The
valuation `wlaSolOff` satisfies every constraint the model builds for
`wlaInOff` although its offset for `([0,5), Line 0)` is 1 while
`Σ_w assign − req = 1 − 1 = 0`; the equality claimed by the spec is the
commented-out line 287 of cp_woker_allocation.py, so only the domain
`[−req, W]` is enforced. -/
theorem wla_offset_unconstrained_bug :
    WlaModelOk wlaInOff wlaSolOff ∧
    wlaSolOff.offset (0, 5) "Line 0" = 1 ∧
    (wlaAssignSum wlaInOff wlaSolOff (0, 5) "Line 0" : Int) -
      (reqModel wlaInOff (0, 5) "Line 0" : Int) = 0 ∧
    wlaSolOff.offset (0, 5) "Line 0" ≠
      (wlaAssignSum wlaInOff wlaSolOff (0, 5) "Line 0" : Int) -
        (reqModel wlaInOff (0, 5) "Line 0" : Int) := by
  refine ⟨⟨by decide, by decide⟩, by decide, by decide, by decide⟩

/-! ### The coarse global-assignment WLA model
(temp_cp_worker_allocation.py, `main_allocation`)

`main_allocation` takes the same three inputs as the interval model, so the
embedding reuses `WlaInput`.  It builds one boolean per `(worker, line)`
pair for the whole horizon, constrains each worker to at most one line,
bounds each line's head count between the maximum and the sum of the
required-worker values of its rows, and — unless the process-global
`medical_flag` is set — forbids a worker on any line running a geometry for
which the worker's record has `medical-condition = True` (note the polarity:
in this model a true `medical-condition` disqualifies, the opposite reading
of the same field from the interval model).  The availability block at lines
140-146 guards each forced assignment behind a fresh unconstrained boolean
`availability_var`, so it restricts nothing: setting every such boolean to 0
satisfies the block for any assignment, hence it is omitted from the
embedded constraint set without changing the satisfiable assignments.  The
soft-constraint variables and the objective (lines 158-202) do not constrain
the assignment booleans and are likewise omitted. -/

/-- The line names of the coarse model: the distinct `Resource` values of
`line_data` (temp_cp_worker_allocation.py line 106; the source materializes
a Python set, whose enumeration order is arbitrary — the embedding fixes
first-appearance order, and no property proved here depends on the order). -/
def lineNamesTemp (inp : WlaInput) : List String :=
  (inp.lineData.map (·.resource)).dedup

/-- The bound `min_workers_per_line`: the maximum `required_workers` over the line's
rows (temp_cp_worker_allocation.py line 115). -/
def minWorkersTemp (inp : WlaInput) (ℓ : String) : Nat :=
  (((inp.lineData.filter (fun o => o.resource == ℓ)).map (·.required)).foldl max 0)

/-- The bound `max_workers_per_line`: the sum of `required_workers` over the line's
rows (temp_cp_worker_allocation.py line 116). -/
def maxWorkersTemp (inp : WlaInput) (ℓ : String) : Nat :=
  (((inp.lineData.filter (fun o => o.resource == ℓ)).map (·.required)).foldl (· + ·) 0)

/-- The worker ids of the coarse model: the keys of
`worker_specific_data`. -/
def workersTemp (inp : WlaInput) : List Nat :=
  inp.workerData.map (·.1)

/-- Each worker is assigned to at most one line
(temp_cp_worker_allocation.py lines 127-129). -/
def tempAtMostOneOk (inp : WlaInput) (σ : Nat → String → Bool) : Prop :=
  ∀ w ∈ workersTemp inp, (lineNamesTemp inp).countP (fun ℓ => σ w ℓ) ≤ 1

/-- Each line's head count lies between `min_workers_per_line` and
`max_workers_per_line` (temp_cp_worker_allocation.py lines 132-136). -/
def tempStaffBoundsOk (inp : WlaInput) (σ : Nat → String → Bool) : Prop :=
  ∀ ℓ ∈ lineNamesTemp inp,
    minWorkersTemp inp ℓ ≤ (workersTemp inp).countP (fun w => σ w ℓ) ∧
    (workersTemp inp).countP (fun w => σ w ℓ) ≤ maxWorkersTemp inp ℓ

/-- The medical exclusions (temp_cp_worker_allocation.py lines 150-156):
for every worker record with `medical-condition = True` on a geometry, the
worker is forbidden on every line that has a row with that geometry. -/
def tempMedicalOk (inp : WlaInput) (σ : Nat → String → Bool) : Prop :=
  ∀ p ∈ inp.workerData, ∀ q ∈ p.2, (q.2).medical = true →
    ∀ ℓ ∈ lineNamesTemp inp,
      (inp.lineData.any (fun o => o.resource == ℓ && o.geometry == q.1)) = true →
      σ p.1 ℓ = false

/-- An assignment satisfies the coarse model's constraint set as built for
the given value of the process-global `medical_flag`: the medical exclusions
are added only when the flag is unset (temp_cp_worker_allocation.py line
150). -/
def TempModelOk (inp : WlaInput) (medicalFlag : Bool) (σ : Nat → String → Bool) : Prop :=
  tempAtMostOneOk inp σ ∧ tempStaffBoundsOk inp σ ∧
    (medicalFlag = false → tempMedicalOk inp σ)

instance (inp : WlaInput) (σ : Nat → String → Bool) : Decidable (tempAtMostOneOk inp σ) := by
  unfold tempAtMostOneOk; exact inferInstance

instance (inp : WlaInput) (σ : Nat → String → Bool) : Decidable (tempStaffBoundsOk inp σ) := by
  unfold tempStaffBoundsOk; exact inferInstance

instance (inp : WlaInput) (σ : Nat → String → Bool) : Decidable (tempMedicalOk inp σ) := by
  unfold tempMedicalOk; exact inferInstance

instance (inp : WlaInput) (flag : Bool) (σ : Nat → String → Bool) :
    Decidable (TempModelOk inp flag σ) := by
  unfold TempModelOk; exact inferInstance

/-- All `(worker, line)` pairs of the coarse model. -/
def tempAssignPairs (inp : WlaInput) : List (Nat × String) :=
  (workersTemp inp).flatMap (fun w => (lineNamesTemp inp).map (fun ℓ => (w, ℓ)))

/-- Whether the coarse model, as built for the given flag value, has any
satisfying assignment (an exhaustive search over the subsets of the
`(worker, line)` pairs, each subset read as the set of true booleans). -/
def tempFeasible (inp : WlaInput) (flag : Bool) : Bool :=
  (tempAssignPairs inp).sublists.any
    (fun s => decide (TempModelOk inp flag (fun w ℓ => (w, ℓ) ∈ s)))

/-- The mapping `main_allocation` returns from a solution
(temp_cp_worker_allocation.py lines 208-216): each line that received at
least one worker, with the workers assigned to it (the source builds a dict
keyed in first-assignment order; the key set and the per-line lists agree
with this embedding, and no property proved here depends on the key
order). -/
def tempWorkersList (inp : WlaInput) (σ : Nat → String → Bool) : List (String × List Nat) :=
  ((lineNamesTemp inp).map (fun ℓ => (ℓ, (workersTemp inp).filter (fun w => σ w ℓ)))).filter
    (fun p => !p.2.isEmpty)

/-- C9: in the mapping returned by `main_allocation`, every worker appears
in the worker list of at most one line, for every solution of the coarse
model under either flag value. -/
theorem temp_allocation_at_most_one_line (inp : WlaInput) (flag : Bool)
    (σ : Nat → String → Bool) (h : TempModelOk inp flag σ) (w : Nat) :
    ((tempWorkersList inp σ).filter (fun p => decide (w ∈ p.2))).length ≤ 1 := by
  rw [← List.countP_eq_length_filter]
  unfold tempWorkersList
  rw [List.countP_filter, List.countP_map]
  by_cases hw : w ∈ workersTemp inp
  · have hmono : ((lineNamesTemp inp).countP
        ((fun p => decide (w ∈ p.2) && !p.2.isEmpty) ∘
          (fun ℓ => (ℓ, (workersTemp inp).filter (fun x => σ x ℓ))))) ≤
        (lineNamesTemp inp).countP (fun ℓ => σ w ℓ) := by
      apply List.countP_mono_left
      intro ℓ hℓ hq
      simp only [Function.comp] at hq
      have hwmem : w ∈ (workersTemp inp).filter (fun x => σ x ℓ) := by
        have := Bool.and_elim_left hq
        exact of_decide_eq_true this
      exact (List.mem_filter.mp hwmem).2
    exact le_trans hmono (h.1 w hw)
  · have hzero : ((lineNamesTemp inp).countP
        ((fun p => decide (w ∈ p.2) && !p.2.isEmpty) ∘
          (fun ℓ => (ℓ, (workersTemp inp).filter (fun x => σ x ℓ))))) ≤
        (lineNamesTemp inp).countP (fun _ => false) := by
      apply List.countP_mono_left
      intro ℓ hℓ hq
      simp only [Function.comp] at hq
      have hwmem : w ∈ (workersTemp inp).filter (fun x => σ x ℓ) :=
        of_decide_eq_true (Bool.and_elim_left hq)
      exact absurd (List.mem_filter.mp hwmem).1 hw
    simpa using le_trans hzero (by simp)

/-- One job on line 0 with geometry `geoG` requiring 1 worker, and one
worker whose `geoG` record has `medical-condition = False` (admissible in
the coarse model). -/
def tempIn9 : WlaInput where
  lineData := [⟨"Order 0", 0, 5, "Line 0", "geoG", 1⟩]
  workerData := [(1, [("geoG", ⟨0, 0, 0, false⟩)])]
  avails := [⟨1, [(0, 5)]⟩]

/-- The assignment putting worker 1 on line 0 and nothing else. -/
def tempSol9 : Nat → String → Bool := fun w ℓ => w == 1 && ℓ == "Line 0"

/-- C9 witness: the at-most-one-line theorem evaluated on the concrete
solution `tempSol9` of `tempIn9`. -/
theorem temp_allocation_at_most_one_line_witness :
    ((tempWorkersList tempIn9 tempSol9).filter (fun p => decide (1 ∈ p.2))).length ≤ 1 :=
  temp_allocation_at_most_one_line tempIn9 false tempSol9
    ⟨by decide, by decide, fun _ => by decide⟩ 1

/-- One job on line 0 with geometry `geoG` requiring 1 worker, and a single
worker whose `geoG` record has `medical-condition = True`: with the medical
exclusions in force no head count of 1 can be reached. -/
def tempInCex8 : WlaInput where
  lineData := [⟨"Order 0", 0, 5, "Line 0", "geoG", 1⟩]
  workerData := [(1, [("geoG", ⟨0, 0, 0, true⟩)])]
  avails := [⟨1, [(0, 5)]⟩]

/-- Like `tempInCex8` but with a second worker whose `geoG` record has
`medical-condition = False`. -/
def tempInD : WlaInput where
  lineData := [⟨"Order 0", 0, 5, "Line 0", "geoG", 1⟩]
  workerData := [(1, [("geoG", ⟨0, 0, 0, true⟩)]), (2, [("geoG", ⟨0, 0, 0, false⟩)])]
  avails := [⟨1, [(0, 5)]⟩, ⟨2, [(0, 5)]⟩]

/-- The assignment putting worker 1 (the medically disqualified one) on
line 0. -/
def tempSolD1 : Nat → String → Bool := fun w ℓ => w == 1 && ℓ == "Line 0"

/-- The assignment putting worker 2 (the medically admissible one) on
line 0. -/
def tempSolD2 : Nat → String → Bool := fun w ℓ => w == 2 && ℓ == "Line 0"

/-- C8 counterexample.  At `tempInCex8` the constraint set built with the
`medical_flag` unset is unsatisfiable while the set built with the flag set
is satisfiable: the first solve therefore returns an empty mapping and the
branch at temp_cp_worker_allocation.py lines 220-223 sets the process-global
flag and re-invokes `main_allocation` — a retry inside the core.  At
`tempInD` the solution sets of the two flag values differ on concrete
assignments, so after the flag has been flipped by an earlier call, a call
with identical arguments can return a mapping (worker 1 on line 0) that a
fresh process could never return. -/
theorem temp_allocation_retry_cex :
    tempFeasible tempInCex8 false = false ∧
    tempFeasible tempInCex8 true = true ∧
    TempModelOk tempInD false tempSolD2 ∧
    ¬ TempModelOk tempInD false tempSolD1 ∧
    TempModelOk tempInD true tempSolD1 := by
  refine ⟨by decide, by decide, by decide, by decide, by decide⟩

/-- C8 (amended): with the value of the process-global `medical_flag` fixed,
the constraint set `main_allocation` builds is a function of its arguments
alone, and relaxing the flag only enlarges the solution set: every
assignment satisfying the strict model (flag unset) also satisfies the
relaxed model (flag set), which is the model the core retries with — once —
when the strict solve returned an empty mapping. -/
theorem temp_allocation_relax_monotone (inp : WlaInput) (σ : Nat → String → Bool)
    (h : TempModelOk inp false σ) : TempModelOk inp true σ :=
  ⟨h.1, h.2.1, fun h' => nomatch h'⟩

/-- C8 witness: the monotonicity theorem applied to the concrete strict
solution `tempSolD2` of `tempInD`. -/
theorem temp_allocation_relax_monotone_witness :
    TempModelOk tempInD true tempSolD2 :=
  temp_allocation_relax_monotone tempInD tempSolD2 ⟨by decide, by decide, fun _ => by decide⟩
